import Mathlib

/-!
# Bookmarks service: request handlers and datastore iterator

A shallow embedding of `main.go` (package `bookmarks`): the presenter/model records, the
`datastoreIterator` wrapper around a query cursor, the two handlers of the `/bookmarks` route and
their helpers.  Collaborators that live outside the package (the datastore, `encoding/json`,
`fmt`, `net/http`) are modelled by small executable definitions whose doc comments say what is
assumed of them.  The listing loop reuses one destination variable, so its slices are modelled
as headers into a heap; everywhere else slices are values.
-/

set_option autoImplicit false

namespace Bookmarks

/-! ## Go values -/

/-- Go `error` values.  `Done` is the sentinel `datastore.Done`, which the source compares by
identity; any other error value is `other msg`, with `msg` the text of its `Error()` method. -/
inductive GoError where
  | Done
  | other (msg : String)
  deriving DecidableEq, Repr

/-- The call `errors.New(msg)`: a fresh error value, never identical to the sentinel. -/
def errorsNew (msg : String) : GoError := GoError.other msg

/-- The method `Error()` of an error value. -/
def GoError.Error : GoError → String
  | GoError.Done => "datastore: query has no more results"
  | GoError.other m => m

/-- A Go slice value: `nil` is the nil slice (the zero value of a slice variable), `mk xs` a
non-nil slice holding the elements `xs` (possibly none). -/
inductive GoSlice (α : Type) where
  | nil
  | mk (elems : List α)
  deriving DecidableEq, Repr

/-- The elements of a slice; the nil slice has none. -/
def GoSlice.toList {α : Type} : GoSlice α → List α
  | GoSlice.nil => []
  | GoSlice.mk xs => xs

/-- The builtin `len` on slices. -/
def GoSlice.len {α : Type} (s : GoSlice α) : Nat := s.toList.length

/-- The builtin `append(s, x)`: the result is never nil. -/
def GoSlice.append {α : Type} (s : GoSlice α) (x : α) : GoSlice α :=
  GoSlice.mk (s.toList ++ [x])

/-- The builtin `len` on strings: the number of bytes. -/
def strLen (s : String) : Nat := s.utf8ByteSize

/-! ## Object definitions -/

structure BookmarkModel where
  Name : String
  Url : String
  Tags : GoSlice String
  deriving DecidableEq, Repr

structure BookmarkPresenter where
  Name : String
  Url : String
  Tags : GoSlice String
  deriving DecidableEq, Repr

structure ErrorPresenter where
  ErrorMessageSummary : String
  ErrorMessageDetails : String
  deriving DecidableEq, Repr

structure ApiKeyModel where
  KeyValue : String
  Company : String
  deriving DecidableEq, Repr

def BookmarkPresenter.IsBookmarkValid (b : BookmarkPresenter) : Bool :=
  decide (strLen b.Name > 0) && decide (strLen b.Url > 0) && decide (b.Tags.len > 0)

def BookmarkPresenter.toBookmarkModel (b : BookmarkPresenter) : BookmarkModel :=
  { Name := b.Name, Url := b.Url, Tags := b.Tags }

def presentError (inErr : GoError) : ErrorPresenter :=
  { ErrorMessageSummary := inErr.Error, ErrorMessageDetails := "" }

def presentBookmark (inBookmark : BookmarkModel) : BookmarkPresenter :=
  { Name := inBookmark.Name, Url := inBookmark.Url, Tags := inBookmark.Tags }

/-! ## `encoding/json`: marshalling of the three shapes the program serializes -/

/-- Lower-case hexadecimal digit of a number below sixteen. -/
def hexDigit (n : Nat) : Char :=
  if n < 10 then Char.ofNat (48 + n) else Char.ofNat (87 + n)

/-- How `json.Marshal` writes one character of a string: the quote and the backslash are
backslash-escaped, control characters use the short escapes `\b \f \n \r \t` or `\u00XX`, the
HTML-sensitive characters `<`, `>`, `&` and the line separators U+2028, U+2029 are written as
`\uXXXX`, and every other character is written as it is. -/
def jsonEscapeChar (c : Char) : List Char :=
  if c = '"' then ['\\', '"']
  else if c = '\\' then ['\\', '\\']
  else if c = Char.ofNat 8 then ['\\', 'b']
  else if c = Char.ofNat 12 then ['\\', 'f']
  else if c = '\n' then ['\\', 'n']
  else if c = '\r' then ['\\', 'r']
  else if c = '\t' then ['\\', 't']
  else if c.toNat < 32 then ['\\', 'u', '0', '0', hexDigit (c.toNat / 16), hexDigit (c.toNat % 16)]
  else if c = '<' then "\\u003c".data
  else if c = '>' then "\\u003e".data
  else if c = '&' then "\\u0026".data
  else if c = Char.ofNat 8232 then "\\u2028".data
  else if c = Char.ofNat 8233 then "\\u2029".data
  else [c]

def jsonEscape : List Char → List Char
  | [] => []
  | c :: cs => jsonEscapeChar c ++ jsonEscape cs

/-- A Go string as a JSON string literal. -/
def jsonString (s : String) : List Char :=
  '"' :: (jsonEscape s.data ++ ['"'])

/-- The items of a JSON array, separated by commas. -/
def jsonJoin : List (List Char) → List Char
  | [] => []
  | [x] => x
  | x :: y :: rest => x ++ (',' :: jsonJoin (y :: rest))

/-- A slice as JSON: the nil slice is `null`, a non-nil slice is an array. -/
def jsonSlice {α : Type} (item : α → List Char) : GoSlice α → List Char
  | GoSlice.nil => "null".data
  | GoSlice.mk xs => '[' :: (jsonJoin (xs.map item) ++ [']'])

/-- A `BookmarkPresenter` as JSON, fields in declaration order under their `json` tags. -/
def jsonBookmark (b : BookmarkPresenter) : List Char :=
  "\x7b\"name\":".data ++ jsonString b.Name ++ ",\"url\":".data ++ jsonString b.Url
    ++ ",\"tags\":".data ++ jsonSlice jsonString b.Tags ++ "\x7d".data

/-- An `ErrorPresenter` as JSON. -/
def jsonError (e : ErrorPresenter) : List Char :=
  "\x7b\"summary\":".data ++ jsonString e.ErrorMessageSummary ++ ",\"error_details\":".data
    ++ jsonString e.ErrorMessageDetails ++ "\x7d".data

/-- The values passed to `toJSONBytesBuffer` through its `interface{}` parameter. -/
inductive JSONThing where
  | errorPresenter (e : ErrorPresenter)
  | bookmark (b : BookmarkPresenter)
  | bookmarks (bs : GoSlice BookmarkPresenter)

/-- The call `json.Marshal(inThing)`: bytes and error.  None of the three shapes can fail to
marshal, so the error is always nil. -/
def jsonMarshal : JSONThing → List Char × Option GoError
  | JSONThing.errorPresenter e => (jsonError e, none)
  | JSONThing.bookmark b => (jsonBookmark b, none)
  | JSONThing.bookmarks bs => (jsonSlice jsonBookmark bs, none)

def toJSONBytesBuffer (inThing : JSONThing) : String × Option GoError :=
  match jsonMarshal inThing with
  | (_, some err) => ("", some err)
  | (thingDataBytes, none) => (String.mk (thingDataBytes ++ ['\n']), none)

/-! ## `fmt`: formatting a format string that comes with no operands -/

def isFlagChar (c : Char) : Bool :=
  c = '#' || c = '0' || c = '+' || c = '-' || c = ' '

def isDigitChar (c : Char) : Bool :=
  decide (48 ≤ c.toNat) && decide (c.toNat ≤ 57)

/-- The digit loop of `parsenum`: `none` when the number grows past one million (the library
then gives up and moves to the end of the format), otherwise whether a digit was read and the
text after the digits. -/
def parsenumAux : List Char → Nat → Bool → Option (Bool × List Char)
  | [], _, isnum => some (isnum, [])
  | c :: cs, num, isnum =>
    if isDigitChar c then
      if num > 1000000 then none else parsenumAux cs (num * 10 + (c.toNat - 48)) true
    else some (isnum, c :: cs)

/-- The library function `parsenum`, reading to the end of the format: whether a number was read,
and the remaining format. -/
def parsenum (s : List Char) : Bool × List Char :=
  match parsenumAux s 0 false with
  | none => (false, [])
  | some r => r

/-- The library function `parseArgNumber` on a format that starts with `[`: the width of the
bracketed index and whether it is a well-formed number. -/
def parseArgNumber (s : List Char) : Nat × Bool :=
  if s.length < 3 then (1, false)
  else
    let inner := s.tail.takeWhile (fun c => c ≠ ']')
    if inner.length = s.tail.length then (1, false)
    else (inner.length + 2, parsenumAux inner 0 false == some (true, []))

/-- The library method `argNumber` when there are no operands: an explicit index `[n]` can never
be in range, so meeting one clears `goodArgNum`.  Returns the remaining format, whether an index
was found, and the new `goodArgNum`. -/
def argNumber (s : List Char) (goodArgNum : Bool) : List Char × Bool × Bool :=
  match s with
  | '[' :: _ =>
    let r := parseArgNumber s
    (s.drop r.1, r.2, false)
  | _ => (s, false, goodArgNum)

/-- The width part of a directive: text written, remaining format, `afterIndex`, `goodArgNum`. -/
def fmtWidth (s : List Char) (afterIndex goodArgNum : Bool) :
    List Char × List Char × Bool × Bool :=
  match s with
  | '*' :: t => ("%!(BADWIDTH)".data, t, false, goodArgNum)
  | _ =>
    let r := parsenum s
    ([], r.2, afterIndex, goodArgNum && !(afterIndex && r.1))

/-- The precision part of a directive: text written, remaining format, `afterIndex`,
`goodArgNum`. -/
def fmtPrecision (s : List Char) (afterIndex goodArgNum : Bool) :
    List Char × List Char × Bool × Bool :=
  match s with
  | '.' :: t =>
    let a := argNumber t (goodArgNum && !afterIndex)
    match a.1 with
    | '*' :: t2 => ("%!(BADPREC)".data, t2, false, a.2.2)
    | _ => ([], (parsenum a.1).2, a.2.1, a.2.2)
  | _ => ([], s, afterIndex, goodArgNum)

/-- One formatting directive, the text after a `%`, when no operand is left: flags, argument
index, width, precision and verb are read as the library's `doPrintf` reads them.  The result is
the text written and the format that remains, `none` when the format ended before a verb. -/
def fmtDirective (s : List Char) : List Char × Option (List Char) :=
  let s1 := s.dropWhile isFlagChar
  let a := argNumber s1 true
  let wd := fmtWidth a.1 a.2.1 a.2.2
  let pr := fmtPrecision wd.2.1 wd.2.2.1 wd.2.2.2
  let e := if pr.2.2.1 then (pr.2.1, true, pr.2.2.2) else argNumber pr.2.1 pr.2.2.2
  match e.1 with
  | [] => (wd.1 ++ pr.1 ++ "%!(NOVERB)".data, none)
  | verb :: rest =>
    if verb = '%' then (wd.1 ++ pr.1 ++ ['%'], some rest)
    else if e.2.2 = false then (wd.1 ++ pr.1 ++ ('%' :: '!' :: verb :: "(BADINDEX)".data), some rest)
    else (wd.1 ++ pr.1 ++ ('%' :: '!' :: verb :: "(MISSING)".data), some rest)

/-- The loop of `doPrintf` with an empty operand list: text is copied up to a `%`, the directive
after it is rendered by `fmtDirective`, and the `skip` characters it consumed are passed over. -/
def doPrintf : List Char → Nat → List Char
  | [], _ => []
  | _ :: cs, skip + 1 => doPrintf cs skip
  | c :: cs, 0 =>
    if c = '%' then
      match fmtDirective cs with
      | (out, none) => out
      | (out, some rest) => out ++ doPrintf cs (cs.length - rest.length)
    else c :: doPrintf cs 0

/-- What `fmt.Fprintf(w, format)` writes when it is given a format and no operands. -/
def sprintfNoArgs (format : String) : String := String.mk (doPrintf format.data 0)

/-! ## `net/http`: the response writer -/

/-- The observable state of an `http.ResponseWriter`: the status code once the header has been
written (`none` before that) and the body written so far. -/
structure ResponseWriter where
  status : Option Nat
  body : String
  deriving DecidableEq, Repr

/-- A response writer nothing has been written to. -/
def ResponseWriter.fresh : ResponseWriter := { status := none, body := "" }

/-- The method `WriteHeader`: sets the status code; a second call has no effect. -/
def ResponseWriter.WriteHeader (w : ResponseWriter) (code : Nat) : ResponseWriter :=
  match w.status with
  | none => { w with status := some code }
  | some _ => w

/-- The method `Write`: the first write sends status 200 when no header was written before. -/
def ResponseWriter.Write (w : ResponseWriter) (s : String) : ResponseWriter :=
  { status := some (w.status.getD 200), body := w.body ++ s }

/-- The call `fmt.Fprint(w, s)` with one string operand. -/
def Fprint (w : ResponseWriter) (s : String) : ResponseWriter := w.Write s

/-- The call `fmt.Fprintf(w, format)` with no operand after the format. -/
def Fprintf (w : ResponseWriter) (format : String) : ResponseWriter :=
  w.Write (sprintfNoArgs format)

def handleError (w : ResponseWriter) (err : GoError) (httpErrCode : Nat) : ResponseWriter :=
  let w1 := w.WriteHeader httpErrCode
  let errorBuffer := (toJSONBytesBuffer (JSONThing.errorPresenter (presentError err))).1
  Fprintf w1 errorBuffer

/-! ## Memory: slices as headers into a heap

The listing loop writes again and again into one variable while copies of its `Tags` header are
kept in the presenters already collected.  There a slice is a header that points into a heap of
backing arrays, and the records are the `Mem` versions below.  Everywhere else a slice is built
once and only read, and is represented by its contents (`GoSlice`). -/

/-- A slice header: nil, or a backing array and a length.  The capacity is the size of the
array. -/
inductive SliceHeader where
  | nil
  | ref (array : Nat) (len : Nat)
  deriving DecidableEq, Repr

/-- The builtin `len` on a slice header. -/
def SliceHeader.len : SliceHeader → Nat
  | SliceHeader.nil => 0
  | SliceHeader.ref _ n => n

/-- The backing arrays allocated so far; each is listed with all the elements of its
capacity. -/
structure Heap where
  arrays : List (List String)
  deriving DecidableEq, Repr

def Heap.empty : Heap := { arrays := [] }

/-- The elements a header gives access to. -/
def Heap.read (h : Heap) : SliceHeader → GoSlice String
  | SliceHeader.nil => GoSlice.nil
  | SliceHeader.ref a n => GoSlice.mk ((h.arrays.getD a []).take n)

/-- The assignment `array[i] = v`. -/
def Heap.store (h : Heap) (a i : Nat) (v : String) : Heap :=
  { arrays := h.arrays.set a ((h.arrays.getD a []).set i v) }

/-- The call `reflect.Append(s, zero)`, as `append` does it: when the capacity allows, the zero
value is written in place after the last element; otherwise a new array of twice the capacity
(of capacity one when there was none) is allocated and the elements are copied to it.  Doubling
is how the runtime grows a slice of fewer than 256 elements. -/
def Heap.appendZero (h : Heap) (s : SliceHeader) : Heap × SliceHeader :=
  match s with
  | SliceHeader.nil => ({ arrays := h.arrays ++ [[""]] }, SliceHeader.ref h.arrays.length 1)
  | SliceHeader.ref a n =>
    let arr := h.arrays.getD a []
    if n < arr.length then (h.store a n "", SliceHeader.ref a (n + 1))
    else
      let newcap := if arr.length = 0 then 1 else 2 * arr.length
      ({ arrays := h.arrays ++ [arr.take n ++ List.replicate (newcap - n) ""] },
        SliceHeader.ref h.arrays.length (n + 1))

/-- The loader's loop `for v.Len() <= sliceIndex { v.Set(reflect.Append(v, zero)) }`, run
`count` times. -/
def Heap.extend : Nat → Heap → SliceHeader → Heap × SliceHeader
  | 0, h, s => (h, s)
  | count + 1, h, s => Heap.extend count (h.appendZero s).1 (h.appendZero s).2

/-- The assignment `slice.Index(i).Set(v)`. -/
def Heap.setIndex (h : Heap) (s : SliceHeader) (i : Nat) (v : String) : Heap :=
  match s with
  | SliceHeader.nil => h
  | SliceHeader.ref a _ => h.store a i v

/-- Loading the values of a multiple-valued property into a slice field, as the loader of the
datastore package does: the value number `i` is stored at index `i` of the slice the field
holds, which is extended first when it is too short; the slice is never cut, and elements
within its length are overwritten where they are. -/
def loadValues : List String → Nat → Heap → SliceHeader → Heap × SliceHeader
  | [], _, h, s => (h, s)
  | v :: vs, i, h, s =>
    let e := Heap.extend (i + 1 - s.len) h s
    loadValues vs (i + 1) (e.1.setIndex e.2 i v) e.2

namespace Mem

/-- A `BookmarkModel` in memory. -/
structure BookmarkModel where
  Name : String
  Url : String
  Tags : SliceHeader
  deriving DecidableEq, Repr

/-- A `BookmarkPresenter` in memory. -/
structure BookmarkPresenter where
  Name : String
  Url : String
  Tags : SliceHeader
  deriving DecidableEq, Repr

/-- The function `presentBookmark` on records in memory: the `Tags` header is copied, so the
presenter shares the backing array of the model. -/
def presentBookmark (inBookmark : BookmarkModel) : BookmarkPresenter :=
  { Name := inBookmark.Name, Url := inBookmark.Url, Tags := inBookmark.Tags }

end Mem

/-- What a `*BookmarkModel` gives access to: the variable pointed to and the heap that holds
the backing arrays. -/
structure Memory where
  heap : Heap
  bookmark : Mem.BookmarkModel
  deriving DecidableEq, Repr

/-- The memory after `var currentBookmark BookmarkModel`: a zero value and nothing allocated. -/
def Memory.zero : Memory :=
  { heap := Heap.empty, bookmark := { Name := "", Url := "", Tags := SliceHeader.nil } }

/-- Loading a stored bookmark into the variable: the entity saved from a `BookmarkModel` has
the properties `Name` and `Url`, which overwrite the two strings, and one value of `Tags` for
each tag, loaded by `loadValues` into the slice the variable holds at that moment. -/
def loadBookmark (e : BookmarkModel) (m : Memory) : Memory :=
  let r := loadValues e.Tags.toList 0 m.heap m.bookmark.Tags
  { heap := r.1, bookmark := { Name := e.Name, Url := e.Url, Tags := r.2 } }

/-- A presenter in memory, read out with the contents of its slice. -/
def Heap.readPresenter (h : Heap) (p : Mem.BookmarkPresenter) : BookmarkPresenter :=
  { Name := p.Name, Url := p.Url, Tags := h.read p.Tags }

/-- A slice of presenters in memory, read out. -/
def Heap.readPresenters (h : Heap) : GoSlice Mem.BookmarkPresenter → GoSlice BookmarkPresenter
  | GoSlice.nil => GoSlice.nil
  | GoSlice.mk ps => GoSlice.mk (ps.map h.readPresenter)

/-! ## The datastore -/

/-- One answer of a query cursor to a call of `Next`: either the next entity, which is loaded
into the destination with a nil error, or an error (`fail GoError.Done` is the normal end of the
results).  An entity of a kind is given by the record it was saved from. -/
inductive CursorStep (α : Type) where
  | record (a : α)
  | fail (err : GoError)
  deriving DecidableEq, Repr

/-- A query cursor (`*datastore.Iterator`): the answers it will give to successive calls of
`Next`.  A cursor with no answer left reports `datastore.Done`. -/
structure Cursor (α : Type) where
  script : List (CursorStep α)
  deriving DecidableEq, Repr

/-- How an entity of type `α`, as the store holds it, is loaded into a destination of type `μ`.
The loader of the datastore package fills the destination it is given: it does not reset it
first. -/
class LoadsInto (α : Type) (μ : outParam Type) where
  load : α → μ → μ

/-- The method `Next(dst)` of a cursor: the error returned, what `dst` points to after the
call, and the advanced cursor.  A call that yields an entity loads it into the destination as it
is at that moment; the sentinel and every error of the store come back before anything is
loaded, so such a call leaves the destination as it was. -/
def Cursor.Next {α μ : Type} [LoadsInto α μ] (t : Cursor α) (dst : μ) :
    Option GoError × μ × Cursor α :=
  match t.script with
  | [] => (some GoError.Done, dst, t)
  | CursorStep.record a :: rest => (none, LoadsInto.load a dst, { script := rest })
  | CursorStep.fail err :: rest => (some err, dst, { script := rest })

/-- A stored bookmark is loaded into the memory behind a `*BookmarkModel`. -/
instance : LoadsInto BookmarkModel Memory where
  load := loadBookmark

/-- An `ApiKey` entity saved from an `ApiKeyModel` has both string properties, which overwrite
the two fields of the destination. -/
instance : LoadsInto ApiKeyModel ApiKeyModel where
  load := fun e _ => e

/-- The records a script yields before its first error, and that error (`Done` when the script
runs out). -/
def yieldsThen {α : Type} : List (CursorStep α) → List α × GoError
  | [] => ([], GoError.Done)
  | CursorStep.record a :: rest => (a :: (yieldsThen rest).1, (yieldsThen rest).2)
  | CursorStep.fail err :: _ => ([], err)

/-- The persisted entities: `ApiKey` records, `Bookmark` records under their numeric key, and the
next identifier the store hands out for an incomplete key. -/
structure Datastore where
  apiKeys : List ApiKeyModel
  bookmarks : List (Nat × BookmarkModel)
  nextID : Nat
  deriving DecidableEq, Repr

/-- What `appengine.NewContext(r)` gives access to: the store, and the failures the store will
inject while serving this request.  `queryFault := some (n, err)` makes a query cursor fail with
`err` after `n` results; `putFault := some err` makes a write fail with `err`. -/
structure Context where
  store : Datastore
  queryFault : Option (Nat × GoError)
  putFault : Option GoError
  deriving DecidableEq, Repr

/-- The cursor of a query whose matching entities are `results`, under a fault plan. -/
def runQuery {α : Type} (results : List α) : Option (Nat × GoError) → Cursor α
  | none => { script := results.map CursorStep.record }
  | some (n, err) => { script := (results.take n).map CursorStep.record ++ [CursorStep.fail err] }

/-- The call `datastore.NewQuery("Bookmark").Run(ctx)`. -/
def Context.RunBookmarkQuery (ctx : Context) : Cursor BookmarkModel :=
  runQuery (ctx.store.bookmarks.map Prod.snd) ctx.queryFault

/-- The call `datastore.NewQuery("ApiKey").Filter("KeyValue =", key).Limit(1).Run(ctx)`. -/
def Context.RunApiKeyQuery (ctx : Context) (key : String) : Cursor ApiKeyModel :=
  runQuery ((ctx.store.apiKeys.filter (fun k => decide (k.KeyValue = key))).take 1) ctx.queryFault

/-- The call `datastore.Put(ctx, datastore.NewIncompleteKey(ctx, "Bookmark", nil), &bookmark)`:
on success one entity is added under a key the store generates, nothing else changes. -/
def Context.PutBookmark (ctx : Context) (bookmark : BookmarkModel) : Context × Option GoError :=
  match ctx.putFault with
  | some err => (ctx, some err)
  | none =>
    ({ ctx with store := { ctx.store with
          bookmarks := ctx.store.bookmarks ++ [(ctx.store.nextID, bookmark)]
          nextID := ctx.store.nextID + 1 } }, none)

/-! ## The iterator over bookmark records -/

structure datastoreIterator where
  allGone : Bool
  cursor : Cursor BookmarkModel
  currentError : Option GoError
  deriving DecidableEq, Repr

def newDatastoreIterator (t : Cursor BookmarkModel) : datastoreIterator :=
  { allGone := false, cursor := t, currentError := none }

def datastoreIterator.handleError (it : datastoreIterator) (err : Option GoError) :
    datastoreIterator :=
  let it1 := if err = some GoError.Done then { it with allGone := true } else it
  let err1 := if err = some GoError.Done then none else err
  match err1 with
  | some e => { it1 with currentError := some e, allGone := true }
  | none => it1

/-- The method `NextBookmark(bookmark)`: the returned flag, the iterator after the call and the
memory behind `bookmark` after the call. -/
def datastoreIterator.NextBookmark (it : datastoreIterator) (bookmark : Memory) :
    Bool × datastoreIterator × Memory :=
  let r := it.cursor.Next bookmark
  let it1 := ({ it with cursor := r.2.2 }).handleError r.1
  (it1.allGone == false, it1, r.2.1)

/-- The iterator, the destination and the returned flags (oldest first) after `n` successive
calls of `NextBookmark`. -/
def callsOfNextBookmark : Nat → datastoreIterator → Memory →
    datastoreIterator × Memory × List Bool
  | 0, it, b => (it, b, [])
  | n + 1, it, b =>
    let r := it.NextBookmark b
    let rest := callsOfNextBookmark n r.2.1 r.2.2
    (rest.1, rest.2.1, r.1 :: rest.2.2)

/-- The errors returned by `n` successive calls of `Next` on a cursor (`none` for a call that
loaded a record). -/
def cursorAnswers {α μ : Type} [LoadsInto α μ] : Nat → Cursor α → μ → List (Option GoError)
  | 0, _, _ => []
  | n + 1, t, dst => (t.Next dst).1 :: cursorAnswers n (t.Next dst).2.2 (t.Next dst).2.1

/-- The error the iterator holds after seeing one more answer, given the one it held before:
an error other than the sentinel replaces it, anything else keeps it. -/
def noteAnswer (held : Option GoError) (answer : Option GoError) : Option GoError :=
  match answer with
  | some GoError.Done => held
  | some e => some e
  | none => held

/-- The most recent error other than the sentinel among a list of answers, `none` when there is
none. -/
def lastRealError (answers : List (Option GoError)) : Option GoError :=
  answers.foldl noteAnswer none

/-- The first error other than the sentinel among a list of answers, `none` when there is
none. -/
def firstRealError : List (Option GoError) → Option GoError
  | [] => none
  | some GoError.Done :: rest => firstRealError rest
  | some e :: _ => some e
  | none :: rest => firstRealError rest

/-! ## Helpers and endpoint methods -/

def isApiKeyValid (ctx : Context) (key : String) : Bool × Option GoError :=
  let t := ctx.RunApiKeyQuery key
  let err := (t.Next { KeyValue := "", Company := "" }).1
  if err = some GoError.Done then (false, some (errorsNew "API Key not found"))
  else (true, err)

/-- The `for dataIterator.NextBookmark(&currentBookmark)` loop that fills `outputArray`.  The
loop has no bound of its own; `fuel` bounds the number of calls, and `none` means the bound was
reached before the loop ended. -/
def collectLoop : Nat → datastoreIterator → Memory → GoSlice Mem.BookmarkPresenter →
    Option (datastoreIterator × Memory × GoSlice Mem.BookmarkPresenter)
  | 0, _, _, _ => none
  | fuel + 1, dataIterator, currentBookmark, outputArray =>
    match dataIterator.NextBookmark currentBookmark with
    | (true, it1, b1) =>
      collectLoop fuel it1 b1 (outputArray.append (Mem.presentBookmark b1.bookmark))
    | (false, it1, b1) => some (it1, b1, outputArray)

/-- The listing handler.  The presenters are serialized as they are in memory when the loop
has ended. -/
def handleEndpointBookmarksGET (fuel : Nat) (w : ResponseWriter) (ctx : Context) :
    Option ResponseWriter :=
  let t := ctx.RunBookmarkQuery
  let dataIterator := newDatastoreIterator t
  match collectLoop fuel dataIterator Memory.zero GoSlice.nil with
  | none => none
  | some (it1, m1, outputArray) =>
    match it1.currentError with
    | some err => some (handleError w err 500)
    | none =>
      some (Fprint w
        (toJSONBytesBuffer (JSONThing.bookmarks (m1.heap.readPresenters outputArray))).1)

/-- The memory and the presenters after the listing loop has taken the records `ms` one after
the other. -/
def collected : List BookmarkModel → Memory → GoSlice Mem.BookmarkPresenter →
    Memory × GoSlice Mem.BookmarkPresenter
  | [], m, out => (m, out)
  | e :: es, m, out =>
    collected es (loadBookmark e m) (out.append (Mem.presentBookmark (loadBookmark e m).bookmark))

/-- An incoming request, as far as the handlers look at it: the method, the value of the
`apikey` header (empty when the header is absent) and the bytes of the body. -/
structure Request where
  Method : String
  apikey : String
  Body : String
  deriving DecidableEq, Repr

/-- The calls a handler makes to its collaborators, in the order it makes them. -/
inductive Call where
  | queryApiKey (key : String)
  | readBody
  | decodeBody
  | putBookmark (bookmark : BookmarkModel)
  deriving DecidableEq, Repr

/-- What a handler leaves behind: the response, the context with the store as it is after the
request, and the calls made. -/
structure Outcome where
  w : ResponseWriter
  ctx : Context
  calls : List Call
  deriving DecidableEq, Repr

/-- The POST handler.  `jsonDecode` is the decoder of `encoding/json` applied to the body:
the decoded presenter or the decode error. -/
def handleEndpointBookmarksPOST (jsonDecode : String → Except GoError BookmarkPresenter)
    (w : ResponseWriter) (r : Request) (ctx : Context) : Outcome :=
  let v := isApiKeyValid ctx r.apikey
  match v.2 with
  | some err =>
    let errCode := if v.1 == false then 403 else 500
    { w := handleError w err errCode, ctx := ctx, calls := [Call.queryApiKey r.apikey] }
  | none =>
    if v.1 then
      match jsonDecode r.Body with
      | Except.error err =>
        { w := handleError w err 400, ctx := ctx,
          calls := [Call.queryApiKey r.apikey, Call.readBody, Call.decodeBody] }
      | Except.ok inBookmark =>
        if inBookmark.IsBookmarkValid then
          let bookmark := inBookmark.toBookmarkModel
          let calls := [Call.queryApiKey r.apikey, Call.readBody, Call.decodeBody,
            Call.putBookmark bookmark]
          match ctx.PutBookmark bookmark with
          | (ctx1, some err) => { w := handleError w err 500, ctx := ctx1, calls := calls }
          | (ctx1, none) =>
            { w := Fprint w (toJSONBytesBuffer (JSONThing.bookmark inBookmark)).1, ctx := ctx1,
              calls := calls }
        else
          { w := handleError w
              (errorsNew "Bookmark failed validation check, must have all of: name, url, tags") 400,
            ctx := ctx, calls := [Call.queryApiKey r.apikey, Call.readBody, Call.decodeBody] }
    else { w := w, ctx := ctx, calls := [Call.queryApiKey r.apikey] }

/-! ## Sample worlds -/

/-- A store with the bootstrap key and no bookmark, and no injected failure. -/
def bootstrappedContext : Context :=
  { store := { apiKeys := [{ KeyValue := "CHANGE ME", Company := "Wilcox Development Solutions" }],
               bookmarks := [], nextID := 1 },
    queryFault := none, putFault := none }

def sampleBookmarkA : BookmarkModel :=
  { Name := "Example", Url := "http://example.com", Tags := GoSlice.mk ["a"] }

def sampleBookmarkB : BookmarkModel :=
  { Name := "Lean", Url := "http://lean-lang.org", Tags := GoSlice.mk ["prover", "language"] }

/-- A store with the bootstrap key and two bookmarks, and no injected failure. -/
def twoBookmarksContext : Context :=
  { store := { apiKeys := [{ KeyValue := "CHANGE ME", Company := "Wilcox Development Solutions" }],
               bookmarks := [(1, sampleBookmarkA), (2, sampleBookmarkB)], nextID := 3 },
    queryFault := none, putFault := none }

/-- The same store, whose queries fail with a quota error after one result. -/
def failingQueryContext : Context :=
  { twoBookmarksContext with queryFault := some (1, GoError.other "quota 100% used") }

/-- The same store, whose queries fail at once with a quota error. -/
def failingLookupContext : Context :=
  { twoBookmarksContext with queryFault := some (0, GoError.other "quota 100% used") }

/-- A decoder that knows one body: it decodes `body` to `p` and rejects anything else. -/
def decodeOnly (body : String) (p : BookmarkPresenter) (s : String) :
    Except GoError BookmarkPresenter :=
  if s = body then Except.ok p else Except.error (GoError.other "unexpected end of JSON input")

def invalidBody : String := "\x7b\"name\":\"\",\"url\":\"x\",\"tags\":[\"a\"]\x7d"

def invalidPresenter : BookmarkPresenter := { Name := "", Url := "x", Tags := GoSlice.mk ["a"] }

def exampleBody : String :=
  "\x7b\"name\":\"Example\",\"url\":\"http://example.com\",\"tags\":[\"a\"]\x7d"

def examplePresenter : BookmarkPresenter :=
  { Name := "Example", Url := "http://example.com", Tags := GoSlice.mk ["a"] }

/-! ## Properties -/

theorem strLen_pos_iff (s : String) : 0 < strLen s ↔ s ≠ "" := by
  rcases s with ⟨l⟩
  cases l with
  | nil => simp [strLen, String.utf8ByteSize, String.utf8ByteSize.go]
  | cons c cs =>
    have hc : 0 < c.utf8Size := Char.utf8Size_pos c
    have hne : (String.mk (c :: cs)) ≠ "" := by
      intro h
      have := congrArg String.data h
      simp at this
    simp only [strLen, String.utf8ByteSize, String.utf8ByteSize.go]
    constructor
    · intro _; exact hne
    · intro _; omega

/-- C1. A presenter is valid exactly when its name is not the empty string, its url is not the
empty string and its tags hold at least one element; so it is invalid as soon as the name is
empty, or the url is empty, or the tags are a present but empty list, or the tags are nil,
whatever the other two fields are. -/
theorem IsBookmarkValid_iff (b : BookmarkPresenter) :
    (b.IsBookmarkValid = true ↔ (b.Name ≠ "" ∧ b.Url ≠ "" ∧ 1 ≤ b.Tags.toList.length))
    ∧ (∀ u t, ({ Name := "", Url := u, Tags := t } : BookmarkPresenter).IsBookmarkValid = false)
    ∧ (∀ n t, ({ Name := n, Url := "", Tags := t } : BookmarkPresenter).IsBookmarkValid = false)
    ∧ (∀ n u, ({ Name := n, Url := u, Tags := GoSlice.mk [] } :
          BookmarkPresenter).IsBookmarkValid = false)
    ∧ (∀ n u, ({ Name := n, Url := u, Tags := GoSlice.nil } :
          BookmarkPresenter).IsBookmarkValid = false) := by
  have key : ∀ p : BookmarkPresenter,
      p.IsBookmarkValid = true ↔ (p.Name ≠ "" ∧ p.Url ≠ "" ∧ 1 ≤ p.Tags.toList.length) := by
    intro p
    simp only [BookmarkPresenter.IsBookmarkValid, Bool.and_eq_true, decide_eq_true_eq,
      GoSlice.len, gt_iff_lt, strLen_pos_iff, and_assoc]
    exact Iff.rfl
  have neg : ∀ p : BookmarkPresenter,
      ¬ (p.Name ≠ "" ∧ p.Url ≠ "" ∧ 1 ≤ p.Tags.toList.length) → p.IsBookmarkValid = false := by
    intro p h
    cases hv : p.IsBookmarkValid with
    | false => rfl
    | true => exact absurd ((key p).1 hv) h
  refine ⟨key b, ?_, ?_, ?_, ?_⟩
  · intro u t; apply neg; simp
  · intro n t; apply neg; simp
  · intro n u; apply neg; simp [GoSlice.toList]
  · intro n u; apply neg; simp [GoSlice.toList]

/-! ### The iterator -/

theorem NextBookmark_of_record (it : datastoreIterator) (b : Memory) (a : BookmarkModel)
    (rest : List (CursorStep BookmarkModel))
    (h : it.cursor.script = CursorStep.record a :: rest) :
    it.NextBookmark b
      = (it.allGone == false, { it with cursor := { script := rest } }, loadBookmark a b) := by
  simp [datastoreIterator.NextBookmark, Cursor.Next, h, datastoreIterator.handleError,
    LoadsInto.load]

theorem NextBookmark_of_done (it : datastoreIterator) (b : Memory)
    (h : (it.cursor.Next b).1 = some GoError.Done) :
    it.NextBookmark b =
      (false, { it with cursor := (it.cursor.Next b).2.2, allGone := true },
        (it.cursor.Next b).2.1) := by
  simp [datastoreIterator.NextBookmark, h, datastoreIterator.handleError]

theorem NextBookmark_of_error (it : datastoreIterator) (b : Memory) (e : GoError)
    (h : (it.cursor.Next b).1 = some e) (he : e ≠ GoError.Done) :
    it.NextBookmark b =
      (false, { cursor := (it.cursor.Next b).2.2, allGone := true, currentError := some e },
        (it.cursor.Next b).2.1) := by
  simp [datastoreIterator.NextBookmark, h, datastoreIterator.handleError, he]

theorem NextBookmark_of_nil (it : datastoreIterator) (b : Memory)
    (h : (it.cursor.Next b).1 = none) :
    it.NextBookmark b =
      (it.allGone == false, { it with cursor := (it.cursor.Next b).2.2 },
        (it.cursor.Next b).2.1) := by
  simp [datastoreIterator.NextBookmark, h, datastoreIterator.handleError]

/-- The error held after a call is the one held before, updated by the cursor's answer. -/
theorem NextBookmark_currentError (it : datastoreIterator) (b : Memory) :
    (it.NextBookmark b).2.1.currentError = noteAnswer it.currentError (it.cursor.Next b).1 := by
  cases h : (it.cursor.Next b).1 with
  | none => rw [NextBookmark_of_nil it b h]; rfl
  | some e =>
    by_cases he : e = GoError.Done
    · subst he; rw [NextBookmark_of_done it b h]; rfl
    · rw [NextBookmark_of_error it b e h he]
      cases e with
      | Done => exact absurd rfl he
      | other m => rfl

/-- The flag `allGone` after a call: set before, or the cursor answered with an error. -/
theorem NextBookmark_allGone (it : datastoreIterator) (b : Memory) :
    (it.NextBookmark b).2.1.allGone = (it.allGone || (it.cursor.Next b).1.isSome) := by
  cases h : (it.cursor.Next b).1 with
  | none => rw [NextBookmark_of_nil it b h]; simp
  | some e =>
    by_cases he : e = GoError.Done
    · subst he; rw [NextBookmark_of_done it b h]; simp
    · rw [NextBookmark_of_error it b e h he]; simp

theorem NextBookmark_flag (it : datastoreIterator) (b : Memory) :
    (it.NextBookmark b).1 = !(it.NextBookmark b).2.1.allGone := by
  simp [datastoreIterator.NextBookmark]

theorem NextBookmark_cursor (it : datastoreIterator) (b : Memory) :
    (it.NextBookmark b).2.1.cursor = (it.cursor.Next b).2.2
      ∧ (it.NextBookmark b).2.2 = (it.cursor.Next b).2.1 := by
  cases h : (it.cursor.Next b).1 with
  | none => rw [NextBookmark_of_nil it b h]; exact ⟨rfl, rfl⟩
  | some e =>
    by_cases he : e = GoError.Done
    · subst he; rw [NextBookmark_of_done it b h]; exact ⟨rfl, rfl⟩
    · rw [NextBookmark_of_error it b e h he]; exact ⟨rfl, rfl⟩

theorem calls_currentError (n : Nat) (it : datastoreIterator) (b : Memory) :
    (callsOfNextBookmark n it b).1.currentError
      = (cursorAnswers n it.cursor b).foldl noteAnswer it.currentError := by
  induction n generalizing it b with
  | zero => rfl
  | succ n ih =>
    simp only [callsOfNextBookmark, cursorAnswers, List.foldl_cons]
    rw [ih, NextBookmark_currentError, (NextBookmark_cursor it b).1, (NextBookmark_cursor it b).2]

theorem calls_allGone (n : Nat) (it : datastoreIterator) (b : Memory) :
    (callsOfNextBookmark n it b).1.allGone
      = (it.allGone || (cursorAnswers n it.cursor b).any Option.isSome) := by
  induction n generalizing it b with
  | zero => simp [callsOfNextBookmark, cursorAnswers]
  | succ n ih =>
    simp only [callsOfNextBookmark, cursorAnswers, List.any_cons]
    rw [ih, NextBookmark_allGone, (NextBookmark_cursor it b).1, (NextBookmark_cursor it b).2,
      Bool.or_assoc]

theorem calls_latched (n : Nat) (it : datastoreIterator) (b : Memory)
    (h : it.allGone = true) :
    (callsOfNextBookmark n it b).1.allGone = true
      ∧ ∀ f ∈ (callsOfNextBookmark n it b).2.2, f = false := by
  induction n generalizing it b with
  | zero => simp [callsOfNextBookmark, h]
  | succ n ih =>
    have h1 : (it.NextBookmark b).2.1.allGone = true := by
      rw [NextBookmark_allGone, h]; rfl
    have h2 : (it.NextBookmark b).1 = false := by
      rw [NextBookmark_flag, h1]; rfl
    have := ih (it.NextBookmark b).2.1 (it.NextBookmark b).2.2 h1
    simp only [callsOfNextBookmark]
    refine ⟨this.1, ?_⟩
    intro f hf
    rcases List.mem_cons.1 hf with hf | hf
    · rw [hf, h2]
    · exact this.2 f hf

theorem foldl_noteAnswer_quiet (answers : List (Option GoError)) (held : Option GoError)
    (h : ∀ x ∈ answers, x = none ∨ x = some GoError.Done ∨ x = held) :
    answers.foldl noteAnswer held = held := by
  induction answers with
  | nil => rfl
  | cons x xs ih =>
    have hx : noteAnswer held x = held := by
      rcases h x (List.mem_cons_self x xs) with hx | hx | hx
      · subst hx; rfl
      · subst hx; rfl
      · rw [hx]
        cases held with
        | none => rfl
        | some e => cases e <;> rfl
    rw [List.foldl_cons, hx]
    exact ih (fun y hy => h y (List.mem_cons_of_mem x hy))

/-- C8 (as amended). On any iterator, a call whose cursor answers with the sentinel sets
`allGone`, returns false and leaves `currentError` as it was; a call whose cursor answers with
any other error sets `currentError` to that error and `allGone` in the same call and returns
false.  Once `allGone` is set it stays set and every later call returns false.  For a freshly
constructed iterator and any number of calls, `allGone` tells whether some answer so far was not
a record, and `currentError` is the most recent error other than the sentinel among the answers
so far (nil when there is none); it keeps its value as long as the cursor answers with records,
the sentinel or that same error. -/
theorem NextBookmark_latches :
    (∀ (it : datastoreIterator) (b : Memory),
        (it.cursor.Next b).1 = some GoError.Done →
        (it.NextBookmark b).2.1.allGone = true
          ∧ (it.NextBookmark b).2.1.currentError = it.currentError
          ∧ (it.NextBookmark b).1 = false)
    ∧ (∀ (it : datastoreIterator) (b : Memory) (e : GoError),
        (it.cursor.Next b).1 = some e → e ≠ GoError.Done →
        (it.NextBookmark b).2.1.allGone = true
          ∧ (it.NextBookmark b).2.1.currentError = some e
          ∧ (it.NextBookmark b).1 = false)
    ∧ (∀ (n : Nat) (it : datastoreIterator) (b : Memory), it.allGone = true →
        (callsOfNextBookmark n it b).1.allGone = true
          ∧ ∀ f ∈ (callsOfNextBookmark n it b).2.2, f = false)
    ∧ (∀ (n : Nat) (t : Cursor BookmarkModel) (b : Memory),
        (callsOfNextBookmark n (newDatastoreIterator t) b).1.allGone
            = (cursorAnswers n t b).any Option.isSome
          ∧ (callsOfNextBookmark n (newDatastoreIterator t) b).1.currentError
            = lastRealError (cursorAnswers n t b))
    ∧ (∀ (n : Nat) (it : datastoreIterator) (b : Memory),
        (∀ x ∈ cursorAnswers n it.cursor b,
            x = none ∨ x = some GoError.Done ∨ x = it.currentError) →
        (callsOfNextBookmark n it b).1.currentError = it.currentError) := by
  refine ⟨?_, ?_, calls_latched, ?_, ?_⟩
  · intro it b h
    rw [NextBookmark_of_done it b h]
    exact ⟨rfl, rfl, rfl⟩
  · intro it b e h he
    rw [NextBookmark_of_error it b e h he]
    exact ⟨rfl, rfl, rfl⟩
  · intro n t b
    rw [calls_allGone, calls_currentError]
    simp [newDatastoreIterator, lastRealError]
  · intro n it b h
    rw [calls_currentError]
    exact foldl_noteAnswer_quiet _ _ h

/-- C8, counterexample. A cursor that answers two successive calls with two different errors:
after the first call the iterator is latched on the first error, and the second call replaces
it, so `currentError` is not the first error encountered. -/
theorem NextBookmark_not_first_error :
    (callsOfNextBookmark 1
        (newDatastoreIterator { script := [CursorStep.fail (GoError.other "a"),
          CursorStep.fail (GoError.other "b")] }) Memory.zero).1.currentError
        = some (GoError.other "a")
    ∧ (callsOfNextBookmark 1
        (newDatastoreIterator { script := [CursorStep.fail (GoError.other "a"),
          CursorStep.fail (GoError.other "b")] }) Memory.zero).1.allGone = true
    ∧ firstRealError (cursorAnswers 2 ({ script := [CursorStep.fail (GoError.other "a"),
          CursorStep.fail (GoError.other "b")] } : Cursor BookmarkModel) Memory.zero)
        = some (GoError.other "a")
    ∧ (callsOfNextBookmark 2
        (newDatastoreIterator { script := [CursorStep.fail (GoError.other "a"),
          CursorStep.fail (GoError.other "b")] }) Memory.zero).1.currentError
        = some (GoError.other "b")
    ∧ (callsOfNextBookmark 2
        (newDatastoreIterator { script := [CursorStep.fail (GoError.other "a"),
          CursorStep.fail (GoError.other "b")] }) Memory.zero).1.currentError
        ≠ firstRealError (cursorAnswers 2 ({ script := [CursorStep.fail (GoError.other "a"),
          CursorStep.fail (GoError.other "b")] } : Cursor BookmarkModel) Memory.zero) := by
  decide

/-! ### Listing -/

/-- The listing loop on a cursor that yields `ms` and then the error `e`: with more fuel than
records the loop ends, memory and presenters are the ones `collected` computes, and the iterator
holds `e` unless `e` is the sentinel. -/
theorem collectLoop_eq (script : List (CursorStep BookmarkModel)) :
    ∀ (fuel : Nat) (it : datastoreIterator) (cur : Memory)
      (out : GoSlice Mem.BookmarkPresenter),
      it.cursor.script = script → it.allGone = false →
      (yieldsThen script).1.length < fuel →
      ∃ it1, collectLoop fuel it cur out
          = some (it1, (collected (yieldsThen script).1 cur out).1,
              (collected (yieldsThen script).1 cur out).2)
        ∧ it1.currentError = noteAnswer it.currentError (some (yieldsThen script).2) := by
  induction script with
  | nil =>
    intro fuel it cur out hs hg hf
    obtain ⟨f, rfl⟩ : ∃ f, fuel = f + 1 := ⟨fuel - 1, by omega⟩
    have hd : (it.cursor.Next cur).1 = some GoError.Done := by simp [Cursor.Next, hs]
    have hm : (it.cursor.Next cur).2.1 = cur := by simp [Cursor.Next, hs]
    refine ⟨{ it with cursor := (it.cursor.Next cur).2.2, allGone := true }, ?_, rfl⟩
    simp only [collectLoop, NextBookmark_of_done it cur hd, hm]
    rfl
  | cons step rest ih =>
    intro fuel it cur out hs hg hf
    obtain ⟨f, rfl⟩ : ∃ f, fuel = f + 1 := ⟨fuel - 1, by omega⟩
    cases step with
    | record a =>
      have hf1 : (yieldsThen rest).1.length < f := by
        simp [yieldsThen] at hf; omega
      obtain ⟨it1, h1, h2⟩ := ih f { it with cursor := { script := rest } } (loadBookmark a cur)
        (out.append (Mem.presentBookmark (loadBookmark a cur).bookmark)) rfl hg hf1
      refine ⟨it1, ?_, ?_⟩
      · simp only [collectLoop, NextBookmark_of_record it cur a rest hs, hg]
        simpa [yieldsThen, collected, hg] using h1
      · simpa [yieldsThen] using h2
    | fail e =>
      have hn : (it.cursor.Next cur).1 = some e := by simp [Cursor.Next, hs]
      have hm : (it.cursor.Next cur).2.1 = cur := by simp [Cursor.Next, hs]
      by_cases he : e = GoError.Done
      · subst he
        refine ⟨{ it with cursor := (it.cursor.Next cur).2.2, allGone := true }, ?_, rfl⟩
        simp only [collectLoop, NextBookmark_of_done it cur hn, hm]
        rfl
      · refine ⟨{ cursor := (it.cursor.Next cur).2.2, allGone := true, currentError := some e },
          ?_, ?_⟩
        · simp only [collectLoop, NextBookmark_of_error it cur e hn he, hm]
          rfl
        · cases e with
          | Done => exact absurd rfl he
          | other m => rfl

/-- The listing handler, whatever the cursor does: with more fuel than the cursor yields
records, the response is the error response for the cursor's error when that error is not the
sentinel, and otherwise the serialization of the presenters as they are in memory after the
last record was loaded. -/
theorem handleEndpointBookmarksGET_eq (fuel : Nat) (w : ResponseWriter) (ctx : Context)
    (hf : (yieldsThen ctx.RunBookmarkQuery.script).1.length < fuel) :
    handleEndpointBookmarksGET fuel w ctx =
      some (if (yieldsThen ctx.RunBookmarkQuery.script).2 = GoError.Done then
          Fprint w (toJSONBytesBuffer (JSONThing.bookmarks
            ((collected (yieldsThen ctx.RunBookmarkQuery.script).1 Memory.zero GoSlice.nil).1.heap.readPresenters
              (collected (yieldsThen ctx.RunBookmarkQuery.script).1 Memory.zero GoSlice.nil).2))).1
        else handleError w (yieldsThen ctx.RunBookmarkQuery.script).2 500) := by
  obtain ⟨it1, h1, h2⟩ := collectLoop_eq ctx.RunBookmarkQuery.script fuel
    (newDatastoreIterator ctx.RunBookmarkQuery) Memory.zero GoSlice.nil rfl rfl hf
  simp only [handleEndpointBookmarksGET, h1]
  cases he : (yieldsThen ctx.RunBookmarkQuery.script).2 with
  | Done =>
    have : it1.currentError = none := by rw [h2, he]; rfl
    simp [this]
  | other m =>
    have : it1.currentError = some (GoError.other m) := by rw [h2, he]; rfl
    simp [this]

/-- The presenters collected from the records `ms`: one for each record, after the ones
collected before, the i-th with the name and the url of the i-th record. -/
theorem collected_names_urls (ms : List BookmarkModel) :
    ∀ (m : Memory) (out : GoSlice Mem.BookmarkPresenter),
      (collected ms m out).2.toList.map (fun p => (p.Name, p.Url))
        = out.toList.map (fun p => (p.Name, p.Url)) ++ ms.map (fun e => (e.Name, e.Url)) := by
  induction ms with
  | nil => intro m out; simp [collected]
  | cons e es ih =>
    intro m out
    rw [collected, ih]
    simp [GoSlice.append, GoSlice.toList, Mem.presentBookmark, loadBookmark]

theorem readPresenters_names_urls (h : Heap) (out : GoSlice Mem.BookmarkPresenter) :
    (h.readPresenters out).toList.map (fun p => (p.Name, p.Url))
      = out.toList.map (fun p => (p.Name, p.Url)) := by
  cases out with
  | nil => rfl
  | mk ps => simp [Heap.readPresenters, GoSlice.toList, Heap.readPresenter, Function.comp_def]

/-- The part of the listing that holds for every number of records.  When the query cursor
yields the records `ms` and then the sentinel, the listing handler (given more fuel than there
are records) returns with status 200, and the slice it serializes holds exactly `ms.length`
presenters, in cursor order, the i-th with the name and the url of the i-th record. -/
theorem GET_lists_names_and_urls (fuel : Nat) (ctx : Context) (ms : List BookmarkModel)
    (hc : yieldsThen ctx.RunBookmarkQuery.script = (ms, GoError.Done))
    (hf : ms.length < fuel) :
    ∃ out : GoSlice BookmarkPresenter,
      handleEndpointBookmarksGET fuel ResponseWriter.fresh ctx
          = some { status := some 200,
                   body := String.mk (jsonSlice jsonBookmark out ++ ['\n']) }
      ∧ out.toList.map (fun p => (p.Name, p.Url)) = ms.map (fun e => (e.Name, e.Url))
      ∧ out.len = ms.length := by
  have hn := readPresenters_names_urls (collected ms Memory.zero GoSlice.nil).1.heap
    (collected ms Memory.zero GoSlice.nil).2
  rw [collected_names_urls] at hn
  refine ⟨(collected ms Memory.zero GoSlice.nil).1.heap.readPresenters
    (collected ms Memory.zero GoSlice.nil).2, ?_, ?_, ?_⟩
  · rw [handleEndpointBookmarksGET_eq fuel _ ctx (by rw [hc]; exact hf), hc]
    rfl
  · simpa [GoSlice.toList] using hn
  · have := congrArg List.length hn
    simpa [GoSlice.len, GoSlice.toList] using this

/-! ### Error responses -/

theorem doPrintf_of_no_percent (s : List Char) (h : '%' ∉ s) : doPrintf s 0 = s := by
  induction s with
  | nil => rfl
  | cons c cs ih =>
    have hc : c ≠ '%' := fun hc => h (by simp [hc])
    have hcs : '%' ∉ cs := fun hcs => h (List.mem_cons_of_mem c hcs)
    simp [doPrintf, hc, ih hcs]

theorem hexDigit_ne_percent : ∀ n, n < 16 → hexDigit n ≠ '%' := by decide

theorem not_mem_ite_of {p : Prop} [Decidable p] {x : Char} {a b : List Char}
    (ha : p → x ∉ a) (hb : ¬ p → x ∉ b) : x ∉ (if p then a else b) := by
  by_cases hp : p
  · rw [if_pos hp]; exact ha hp
  · rw [if_neg hp]; exact hb hp

theorem jsonEscapeChar_no_percent (c : Char) (h : c ≠ '%') : '%' ∉ jsonEscapeChar c := by
  unfold jsonEscapeChar
  refine not_mem_ite_of (fun _ => by decide) fun _ => ?_
  refine not_mem_ite_of (fun _ => by decide) fun _ => ?_
  refine not_mem_ite_of (fun _ => by decide) fun _ => ?_
  refine not_mem_ite_of (fun _ => by decide) fun _ => ?_
  refine not_mem_ite_of (fun _ => by decide) fun _ => ?_
  refine not_mem_ite_of (fun _ => by decide) fun _ => ?_
  refine not_mem_ite_of (fun _ => by decide) fun _ => ?_
  refine not_mem_ite_of (fun hlt => ?_) fun _ => ?_
  · have a := hexDigit_ne_percent (c.toNat / 16) (by omega)
    have b := hexDigit_ne_percent (c.toNat % 16) (by omega)
    intro hm
    rcases List.mem_cons.1 hm with e | hm
    · exact absurd e (by decide)
    rcases List.mem_cons.1 hm with e | hm
    · exact absurd e (by decide)
    rcases List.mem_cons.1 hm with e | hm
    · exact absurd e (by decide)
    rcases List.mem_cons.1 hm with e | hm
    · exact absurd e (by decide)
    rcases List.mem_cons.1 hm with e | hm
    · exact a e.symm
    rcases List.mem_cons.1 hm with e | hm
    · exact b e.symm
    · exact absurd hm (List.not_mem_nil _)
  refine not_mem_ite_of (fun _ => by decide) fun _ => ?_
  refine not_mem_ite_of (fun _ => by decide) fun _ => ?_
  refine not_mem_ite_of (fun _ => by decide) fun _ => ?_
  refine not_mem_ite_of (fun _ => by decide) fun _ => ?_
  refine not_mem_ite_of (fun _ => by decide) fun _ => ?_
  intro hm
  rcases List.mem_cons.1 hm with e | hm
  · exact h e.symm
  · exact absurd hm (List.not_mem_nil _)

theorem jsonEscape_no_percent (s : List Char) (h : '%' ∉ s) : '%' ∉ jsonEscape s := by
  induction s with
  | nil => simp [jsonEscape]
  | cons c cs ih =>
    have hc : c ≠ '%' := fun hc => h (by simp [hc])
    have hcs : '%' ∉ cs := fun hcs => h (List.mem_cons_of_mem c hcs)
    simp only [jsonEscape, List.mem_append, not_or]
    exact ⟨jsonEscapeChar_no_percent c hc, ih hcs⟩

theorem jsonError_no_percent (err : GoError) (h : '%' ∉ err.Error.data) :
    '%' ∉ jsonError (presentError err) ++ ['\n'] := by
  have e := jsonEscape_no_percent _ h
  have h1 : '%' ∉ "\x7b\"summary\":".data := by decide
  have h2 : '%' ∉ ",\"error_details\":".data := by decide
  have h3 : '%' ∉ jsonString "" := by decide
  have h4 : '%' ∉ "\x7d".data := by decide
  have h5 : '%' ∉ ['\n'] := by decide
  have h6 : '%' ∉ jsonString err.Error := by
    simp only [jsonString, List.mem_cons, List.mem_append, List.mem_singleton,
      List.not_mem_nil, or_false, not_or]
    exact ⟨by decide, e, by decide⟩
  simp only [jsonError, presentError, List.mem_append, not_or]
  exact ⟨⟨⟨⟨⟨h1, h6⟩, h2⟩, h3⟩, h4⟩, h5⟩

/-- The error response when the error's message has no percent sign: the given status (unless
a header was written before) and, appended to the body, the JSON object with the message as
`summary` and an empty `error_details`, followed by one newline. -/
theorem handleError_of_no_percent (w : ResponseWriter) (err : GoError) (code : Nat)
    (h : '%' ∉ err.Error.data) :
    handleError w err code
      = { status := some (w.status.getD code),
          body := w.body ++ String.mk (jsonError (presentError err) ++ ['\n']) } := by
  have hp := doPrintf_of_no_percent _ (jsonError_no_percent err h)
  rcases w with ⟨st, bd⟩
  simp only [handleError, Fprintf, ResponseWriter.Write, sprintfNoArgs, toJSONBytesBuffer,
    jsonMarshal, hp, ResponseWriter.WriteHeader]
  cases st <;> rfl

/-- C10, at the failing input. The message of the decode error for a body that is a lone
percent sign, with status 400: the status is written, but the body is not the JSON
serialization of the error object followed by a newline; the percent sign of the message has
become the text of a formatting directive without operand. -/
theorem handleError_percent_message :
    handleError ResponseWriter.fresh
        (GoError.other "invalid character \x27%\x27 looking for beginning of value") 400
      = { status := some 400,
          body := "\x7b\"summary\":\"invalid character \x27%!\x27(MISSING) looking for beginning of value\",\"error_details\":\"\"\x7d\n" }
    ∧ String.mk (jsonError (presentError
          (GoError.other "invalid character \x27%\x27 looking for beginning of value")) ++ ['\n'])
      = "\x7b\"summary\":\"invalid character \x27%\x27 looking for beginning of value\",\"error_details\":\"\"\x7d\n"
    ∧ (handleError ResponseWriter.fresh
        (GoError.other "invalid character \x27%\x27 looking for beginning of value") 400).body
      ≠ String.mk (jsonError (presentError
          (GoError.other "invalid character \x27%\x27 looking for beginning of value")) ++ ['\n']) := by
  decide

/-! ### Listing: the claims at concrete stores -/

/-- C2, at the failing input. A store holding two bookmarks, the first with the tag `a`, the
second with the tags `prover` and `language`, and answering without error: the cursor yields the
two records and then the sentinel, the status is 200 and two presenters are listed, but the
first is listed with the tag `prover`, not with its own tag `a`.  The loop loads every record
into the one variable `currentBookmark`, the presenter of the first record shares the backing
array of that variable's tags, and loading the second record overwrites it. -/
theorem GET_first_tags_overwritten :
    yieldsThen twoBookmarksContext.RunBookmarkQuery.script
      = ([sampleBookmarkA, sampleBookmarkB], GoError.Done)
    ∧ handleEndpointBookmarksGET 3 ResponseWriter.fresh twoBookmarksContext
      = some { status := some 200,
               body := "[\x7b\"name\":\"Example\",\"url\":\"http://example.com\",\"tags\":[\"prover\"]\x7d,\x7b\"name\":\"Lean\",\"url\":\"http://lean-lang.org\",\"tags\":[\"prover\",\"language\"]\x7d]\n" }
    ∧ String.mk (jsonSlice jsonBookmark
          (GoSlice.mk ([sampleBookmarkA, sampleBookmarkB].map presentBookmark)) ++ ['\n'])
      = "[\x7b\"name\":\"Example\",\"url\":\"http://example.com\",\"tags\":[\"a\"]\x7d,\x7b\"name\":\"Lean\",\"url\":\"http://lean-lang.org\",\"tags\":[\"prover\",\"language\"]\x7d]\n"
    ∧ handleEndpointBookmarksGET 3 ResponseWriter.fresh twoBookmarksContext
      ≠ some { status := some 200,
               body := String.mk (jsonSlice jsonBookmark
                 (GoSlice.mk ([sampleBookmarkA, sampleBookmarkB].map presentBookmark))
                 ++ ['\n']) } := by
  decide

/-- The listing of a cursor that yields no record and then the sentinel: status 200 and the
body `null` followed by a newline, since the slice that was never appended to is still nil. -/
theorem GET_no_record (fuel : Nat) (ctx : Context)
    (hc : yieldsThen ctx.RunBookmarkQuery.script = ([], GoError.Done)) (hf : 0 < fuel) :
    handleEndpointBookmarksGET fuel ResponseWriter.fresh ctx
      = some { status := some 200, body := "null\n" } := by
  rw [handleEndpointBookmarksGET_eq fuel _ ctx (by rw [hc]; exact hf), hc]
  rfl

/-- C9, at the failing input. Listing a store that holds no bookmark: the cursor yields no
record and then the sentinel, and the body written is `null` and a newline, not the empty
array `[]` and a newline. -/
theorem GET_empty_store_body :
    yieldsThen bootstrappedContext.RunBookmarkQuery.script = ([], GoError.Done)
    ∧ handleEndpointBookmarksGET 1 ResponseWriter.fresh bootstrappedContext
        = some { status := some 200, body := "null\n" }
    ∧ handleEndpointBookmarksGET 1 ResponseWriter.fresh bootstrappedContext
        ≠ some { status := some 200, body := "[]\n" } := by
  decide

/-- The listing of a cursor that yields some records and then an error other than the
sentinel: the response is the error response for that error with status 500, the same whatever
the records were; when the error's message has no percent sign, the body is exactly the JSON
error object and a newline. -/
theorem GET_cursor_error (fuel : Nat) (ctx : Context) (ms : List BookmarkModel) (e : GoError)
    (hc : yieldsThen ctx.RunBookmarkQuery.script = (ms, e)) (he : e ≠ GoError.Done)
    (hf : ms.length < fuel) :
    handleEndpointBookmarksGET fuel ResponseWriter.fresh ctx
        = some (handleError ResponseWriter.fresh e 500)
    ∧ (handleError ResponseWriter.fresh e 500).status = some 500
    ∧ ('%' ∉ e.Error.data →
        handleEndpointBookmarksGET fuel ResponseWriter.fresh ctx
          = some { status := some 500,
                   body := String.mk (jsonError (presentError e) ++ ['\n']) }) := by
  have h1 : handleEndpointBookmarksGET fuel ResponseWriter.fresh ctx
      = some (handleError ResponseWriter.fresh e 500) := by
    rw [handleEndpointBookmarksGET_eq fuel _ ctx (by rw [hc]; exact hf), hc]
    simp [he]
  refine ⟨h1, rfl, fun hp => ?_⟩
  rw [h1, handleError_of_no_percent _ _ _ hp]
  rfl

/-- C3, at the failing input. The cursor yields one record and then fails with an error whose
message holds a percent sign: the status is 500 and no bookmark is written, but the body is not
the JSON error object for the error; the text after the percent sign has been taken for a
formatting directive. -/
theorem GET_cursor_error_percent_message :
    yieldsThen failingQueryContext.RunBookmarkQuery.script
      = ([sampleBookmarkA], GoError.other "quota 100% used")
    ∧ handleEndpointBookmarksGET 2 ResponseWriter.fresh failingQueryContext
      = some { status := some 500,
               body := "\x7b\"summary\":\"quota 100%!u(MISSING)sed\",\"error_details\":\"\"\x7d\n" }
    ∧ String.mk (jsonError (presentError (GoError.other "quota 100% used")) ++ ['\n'])
      = "\x7b\"summary\":\"quota 100% used\",\"error_details\":\"\"\x7d\n"
    ∧ handleEndpointBookmarksGET 2 ResponseWriter.fresh failingQueryContext
      ≠ some { status := some 500,
               body := String.mk (jsonError (presentError (GoError.other "quota 100% used"))
                 ++ ['\n']) } := by
  decide

/-! ### API key validation -/

/-- The error returned by the single fetch of `isApiKeyValid`. -/
theorem fetch_of_fault (ctx : Context) (key : String) (n : Nat) (e : GoError)
    (h : ctx.queryFault = some (n, e)) (hn : n = 0) :
    ((ctx.RunApiKeyQuery key).Next { KeyValue := "", Company := "" }).1 = some e := by
  subst hn
  simp [Context.RunApiKeyQuery, runQuery, h, Cursor.Next]

theorem fetch_of_no_match (ctx : Context) (key : String) (h : ctx.queryFault = none)
    (hk : ∀ k ∈ ctx.store.apiKeys, k.KeyValue ≠ key) :
    ((ctx.RunApiKeyQuery key).Next { KeyValue := "", Company := "" }).1 = some GoError.Done := by
  have : ctx.store.apiKeys.filter (fun k => decide (k.KeyValue = key)) = [] := by
    rw [List.filter_eq_nil_iff]
    intro k hm
    simpa using hk k hm
  simp [Context.RunApiKeyQuery, runQuery, h, Cursor.Next, this]

theorem fetch_of_match (ctx : Context) (key : String) (h : ctx.queryFault = none)
    (k : ApiKeyModel) (hm : k ∈ ctx.store.apiKeys) (hk : k.KeyValue = key) :
    ((ctx.RunApiKeyQuery key).Next { KeyValue := "", Company := "" }).1 = none := by
  have hne : ctx.store.apiKeys.filter (fun k => decide (k.KeyValue = key)) ≠ [] := by
    intro hnil
    rw [List.filter_eq_nil_iff] at hnil
    exact hnil k hm (by simpa using hk)
  cases hf : ctx.store.apiKeys.filter (fun k => decide (k.KeyValue = key)) with
  | nil => exact absurd hf hne
  | cons a as => simp [Context.RunApiKeyQuery, runQuery, h, Cursor.Next, hf]

theorem isApiKeyValid_of_done (ctx : Context) (key : String)
    (h : ((ctx.RunApiKeyQuery key).Next { KeyValue := "", Company := "" }).1
      = some GoError.Done) :
    isApiKeyValid ctx key = (false, some (GoError.other "API Key not found")) := by
  simp [isApiKeyValid, h, errorsNew]

theorem isApiKeyValid_of_nil (ctx : Context) (key : String)
    (h : ((ctx.RunApiKeyQuery key).Next { KeyValue := "", Company := "" }).1 = none) :
    isApiKeyValid ctx key = (true, none) := by
  simp [isApiKeyValid, h]

theorem isApiKeyValid_of_error (ctx : Context) (key : String) (e : GoError)
    (h : ((ctx.RunApiKeyQuery key).Next { KeyValue := "", Company := "" }).1 = some e)
    (he : e ≠ GoError.Done) :
    isApiKeyValid ctx key = (true, some e) := by
  simp [isApiKeyValid, h, he]

/-- C4. Whatever the store and the key, the result of `isApiKeyValid` follows the outcome of its
single fetch: the sentinel gives false with a new error whose message is "API Key not found", a
successful fetch gives true with a nil error, any other error gives true with that error; the
result is never false with a nil error.  Each outcome of the fetch occurs for some store. -/
theorem isApiKeyValid_by_fetch (ctx : Context) (key : String) :
    (((ctx.RunApiKeyQuery key).Next { KeyValue := "", Company := "" }).1 = some GoError.Done →
        isApiKeyValid ctx key = (false, some (GoError.other "API Key not found")))
    ∧ (((ctx.RunApiKeyQuery key).Next { KeyValue := "", Company := "" }).1 = none →
        isApiKeyValid ctx key = (true, none))
    ∧ (∀ e : GoError,
        ((ctx.RunApiKeyQuery key).Next { KeyValue := "", Company := "" }).1 = some e →
        e ≠ GoError.Done → isApiKeyValid ctx key = (true, some e))
    ∧ isApiKeyValid ctx key ≠ (false, none)
    ∧ (GoError.other "API Key not found").Error = "API Key not found"
    ∧ (∀ outcome : Option GoError, ∃ ctx1 : Context,
        ((ctx1.RunApiKeyQuery key).Next { KeyValue := "", Company := "" }).1 = outcome) := by
  refine ⟨isApiKeyValid_of_done ctx key, isApiKeyValid_of_nil ctx key,
    isApiKeyValid_of_error ctx key, ?_, rfl, ?_⟩
  · unfold isApiKeyValid
    by_cases h : ((ctx.RunApiKeyQuery key).Next { KeyValue := "", Company := "" }).1
        = some GoError.Done
    · simp [h]
    · simp [h]
  · intro outcome
    cases outcome with
    | none =>
      exact ⟨{ store := { apiKeys := [{ KeyValue := key, Company := "" }], bookmarks := [],
                          nextID := 0 }, queryFault := none, putFault := none },
        fetch_of_match _ key rfl { KeyValue := key, Company := "" } (by simp) rfl⟩
    | some e =>
      exact ⟨{ store := { apiKeys := [], bookmarks := [], nextID := 0 },
               queryFault := some (0, e), putFault := none },
        fetch_of_fault _ key 0 e rfl rfl⟩

/-! ### Creating a bookmark -/

/-- A request whose key lookup returns an error: the response is the error response for that
error, with status 403 when the lookup reported false and 500 otherwise; the store is left as it
was and the only call made is the key query, so the outcome does not depend on the body or on
the decoder. -/
theorem POST_lookup_error (jsonDecode : String → Except GoError BookmarkPresenter)
    (w : ResponseWriter) (r : Request) (ctx : Context) (valid : Bool) (err : GoError)
    (h : isApiKeyValid ctx r.apikey = (valid, some err)) :
    handleEndpointBookmarksPOST jsonDecode w r ctx
      = { w := handleError w err (if valid = false then 403 else 500), ctx := ctx,
          calls := [Call.queryApiKey r.apikey] } := by
  cases valid <;> simp [handleEndpointBookmarksPOST, h]

/-- A request whose key matches no stored key, the store answering without failure: status 403,
the body `{"summary":"API Key not found","error_details":""}` and a newline; the store is
unchanged, and the only call made is the key query (no body read, no decoding, no write). -/
theorem POST_unknown_key (jsonDecode : String → Except GoError BookmarkPresenter)
    (r : Request) (ctx : Context) (hq : ctx.queryFault = none)
    (hk : ∀ k ∈ ctx.store.apiKeys, k.KeyValue ≠ r.apikey) :
    handleEndpointBookmarksPOST jsonDecode ResponseWriter.fresh r ctx
      = { w := { status := some 403,
                 body := "\x7b\"summary\":\"API Key not found\",\"error_details\":\"\"\x7d\n" },
          ctx := ctx, calls := [Call.queryApiKey r.apikey] } := by
  have h := isApiKeyValid_of_done ctx r.apikey (fetch_of_no_match ctx r.apikey hq hk)
  rw [POST_lookup_error jsonDecode _ r ctx false _ h]
  have : handleError ResponseWriter.fresh (GoError.other "API Key not found") 403
      = { status := some 403,
          body := "\x7b\"summary\":\"API Key not found\",\"error_details\":\"\"\x7d\n" } := by
    decide
  simp [this]

/-- A request whose key lookup fails with an error other than the sentinel: status 500 and the
error response for that error, which is the JSON error object carrying the message when the
message has no percent sign; the store is unchanged and the only call made is the key query. -/
theorem POST_lookup_failure (jsonDecode : String → Except GoError BookmarkPresenter)
    (r : Request) (ctx : Context) (e : GoError)
    (hq : ((ctx.RunApiKeyQuery r.apikey).Next { KeyValue := "", Company := "" }).1 = some e)
    (he : e ≠ GoError.Done) :
    handleEndpointBookmarksPOST jsonDecode ResponseWriter.fresh r ctx
        = { w := handleError ResponseWriter.fresh e 500, ctx := ctx,
            calls := [Call.queryApiKey r.apikey] }
    ∧ (handleError ResponseWriter.fresh e 500).status = some 500
    ∧ ('%' ∉ e.Error.data →
        handleError ResponseWriter.fresh e 500
          = { status := some 500,
              body := String.mk (jsonError (presentError e) ++ ['\n']) }) := by
  have h := isApiKeyValid_of_error ctx r.apikey e hq he
  refine ⟨?_, rfl, fun hp => ?_⟩
  · rw [POST_lookup_error jsonDecode _ r ctx true _ h]; simp
  · rw [handleError_of_no_percent _ _ _ hp]; rfl

/-- C5, at the failing input. The key lookup fails with an error whose message holds a percent
sign: the status is 500, the store is unchanged and only the key query is made, but the body
does not carry the error's message; the text after the percent sign has been taken for a
formatting directive. -/
theorem POST_lookup_failure_percent_message :
    isApiKeyValid failingLookupContext "CHANGE ME"
      = (true, some (GoError.other "quota 100% used"))
    ∧ handleEndpointBookmarksPOST (decodeOnly exampleBody examplePresenter)
        ResponseWriter.fresh { Method := "POST", apikey := "CHANGE ME", Body := exampleBody }
        failingLookupContext
      = { w := { status := some 500,
                 body := "\x7b\"summary\":\"quota 100%!u(MISSING)sed\",\"error_details\":\"\"\x7d\n" },
          ctx := failingLookupContext, calls := [Call.queryApiKey "CHANGE ME"] }
    ∧ (handleEndpointBookmarksPOST (decodeOnly exampleBody examplePresenter)
        ResponseWriter.fresh { Method := "POST", apikey := "CHANGE ME", Body := exampleBody }
        failingLookupContext).w.body
      ≠ "\x7b\"summary\":\"quota 100% used\",\"error_details\":\"\"\x7d\n" := by
  decide

/-- C6. A request with a valid key whose body decodes to a presenter that fails the validity
check: status 400, the body is the error object with the fixed message "Bookmark failed
validation check, must have all of: name, url, tags" and a newline; the store is unchanged and
no write is among the calls made. -/
theorem POST_invalid_bookmark (jsonDecode : String → Except GoError BookmarkPresenter)
    (r : Request) (ctx : Context) (p : BookmarkPresenter)
    (hk : isApiKeyValid ctx r.apikey = (true, none))
    (hd : jsonDecode r.Body = Except.ok p)
    (hv : p.IsBookmarkValid = false) :
    handleEndpointBookmarksPOST jsonDecode ResponseWriter.fresh r ctx
      = { w := { status := some 400,
                 body := "\x7b\"summary\":\"Bookmark failed validation check, must have all of: name, url, tags\",\"error_details\":\"\"\x7d\n" },
          ctx := ctx,
          calls := [Call.queryApiKey r.apikey, Call.readBody, Call.decodeBody] } := by
  have : handleError ResponseWriter.fresh
      (errorsNew "Bookmark failed validation check, must have all of: name, url, tags") 400
      = { status := some 400,
          body := "\x7b\"summary\":\"Bookmark failed validation check, must have all of: name, url, tags\",\"error_details\":\"\"\x7d\n" } := by
    decide
  simp [handleEndpointBookmarksPOST, hk, hd, hv, this]

/-- C6, witness. The bootstrap key and the body `{"name":"","url":"x","tags":["a"]}`. -/
theorem POST_invalid_bookmark_witness :
    (isApiKeyValid bootstrappedContext "CHANGE ME" = (true, none)
      ∧ decodeOnly invalidBody invalidPresenter invalidBody = Except.ok invalidPresenter
      ∧ invalidPresenter.IsBookmarkValid = false)
    ∧ handleEndpointBookmarksPOST (decodeOnly invalidBody invalidPresenter)
        ResponseWriter.fresh { Method := "POST", apikey := "CHANGE ME", Body := invalidBody }
        bootstrappedContext
      = { w := { status := some 400,
                 body := "\x7b\"summary\":\"Bookmark failed validation check, must have all of: name, url, tags\",\"error_details\":\"\"\x7d\n" },
          ctx := bootstrappedContext,
          calls := [Call.queryApiKey "CHANGE ME", Call.readBody, Call.decodeBody] } :=
  ⟨⟨by decide, by simp [decodeOnly], by decide⟩,
    POST_invalid_bookmark (decodeOnly invalidBody invalidPresenter)
      { Method := "POST", apikey := "CHANGE ME", Body := invalidBody } bootstrappedContext
      invalidPresenter (by decide) (by simp [decodeOnly]) (by decide)⟩

/-- C7. A request with a valid key whose body decodes to a valid presenter `p`, the store write
succeeding: the calls made hold exactly one write, of the record with the name, url and tags of
`p`; the store afterwards is the store before with that one record added under the key the
store generated, every earlier bookmark and every key record as before; the response has status
200 and its body is the JSON serialization of `p` itself and a newline. -/
theorem POST_valid_bookmark (jsonDecode : String → Except GoError BookmarkPresenter)
    (r : Request) (ctx : Context) (p : BookmarkPresenter)
    (hk : isApiKeyValid ctx r.apikey = (true, none))
    (hd : jsonDecode r.Body = Except.ok p)
    (hv : p.IsBookmarkValid = true)
    (hp : ctx.putFault = none) :
    (handleEndpointBookmarksPOST jsonDecode ResponseWriter.fresh r ctx).calls
        = [Call.queryApiKey r.apikey, Call.readBody, Call.decodeBody,
            Call.putBookmark { Name := p.Name, Url := p.Url, Tags := p.Tags }]
    ∧ (handleEndpointBookmarksPOST jsonDecode ResponseWriter.fresh r ctx).ctx.store.bookmarks
        = ctx.store.bookmarks
            ++ [(ctx.store.nextID, { Name := p.Name, Url := p.Url, Tags := p.Tags })]
    ∧ (handleEndpointBookmarksPOST jsonDecode ResponseWriter.fresh r ctx).ctx.store.apiKeys
        = ctx.store.apiKeys
    ∧ (handleEndpointBookmarksPOST jsonDecode ResponseWriter.fresh r ctx).ctx.store.nextID
        = ctx.store.nextID + 1
    ∧ (handleEndpointBookmarksPOST jsonDecode ResponseWriter.fresh r ctx).w
        = { status := some 200, body := String.mk (jsonBookmark p ++ ['\n']) } := by
  simp [handleEndpointBookmarksPOST, hk, hd, hv, hp, Context.PutBookmark,
    BookmarkPresenter.toBookmarkModel, Fprint, ResponseWriter.Write, ResponseWriter.fresh,
    toJSONBytesBuffer, jsonMarshal]

/-- C7, witness. The bootstrap key and the body
`{"name":"Example","url":"http://example.com","tags":["a"]}` on a store without bookmarks. -/
theorem POST_valid_bookmark_witness :
    (isApiKeyValid bootstrappedContext "CHANGE ME" = (true, none)
      ∧ decodeOnly exampleBody examplePresenter exampleBody = Except.ok examplePresenter
      ∧ examplePresenter.IsBookmarkValid = true
      ∧ bootstrappedContext.putFault = none)
    ∧ (handleEndpointBookmarksPOST (decodeOnly exampleBody examplePresenter)
          ResponseWriter.fresh { Method := "POST", apikey := "CHANGE ME", Body := exampleBody }
          bootstrappedContext).calls
        = [Call.queryApiKey "CHANGE ME", Call.readBody, Call.decodeBody,
            Call.putBookmark { Name := "Example", Url := "http://example.com",
                               Tags := GoSlice.mk ["a"] }]
    ∧ (handleEndpointBookmarksPOST (decodeOnly exampleBody examplePresenter)
          ResponseWriter.fresh { Method := "POST", apikey := "CHANGE ME", Body := exampleBody }
          bootstrappedContext).ctx.store.bookmarks
        = bootstrappedContext.store.bookmarks
            ++ [(bootstrappedContext.store.nextID,
                  { Name := "Example", Url := "http://example.com", Tags := GoSlice.mk ["a"] })]
    ∧ (handleEndpointBookmarksPOST (decodeOnly exampleBody examplePresenter)
          ResponseWriter.fresh { Method := "POST", apikey := "CHANGE ME", Body := exampleBody }
          bootstrappedContext).ctx.store.apiKeys
        = bootstrappedContext.store.apiKeys
    ∧ (handleEndpointBookmarksPOST (decodeOnly exampleBody examplePresenter)
          ResponseWriter.fresh { Method := "POST", apikey := "CHANGE ME", Body := exampleBody }
          bootstrappedContext).ctx.store.nextID
        = bootstrappedContext.store.nextID + 1
    ∧ (handleEndpointBookmarksPOST (decodeOnly exampleBody examplePresenter)
          ResponseWriter.fresh { Method := "POST", apikey := "CHANGE ME", Body := exampleBody }
          bootstrappedContext).w
        = { status := some 200, body := String.mk (jsonBookmark examplePresenter ++ ['\n']) } :=
  ⟨⟨by decide, by simp [decodeOnly], by decide, rfl⟩,
    POST_valid_bookmark (decodeOnly exampleBody examplePresenter)
      { Method := "POST", apikey := "CHANGE ME", Body := exampleBody } bootstrappedContext
      examplePresenter (by decide) (by simp [decodeOnly]) (by decide) rfl⟩

/-- The response to the example request echoes the body that was sent, followed by a newline. -/
theorem POST_example_echo :
    (handleEndpointBookmarksPOST (decodeOnly exampleBody examplePresenter)
        ResponseWriter.fresh { Method := "POST", apikey := "CHANGE ME", Body := exampleBody }
        bootstrappedContext).w
      = { status := some 200, body := exampleBody ++ "\n" } := by
  decide

end Bookmarks
